import Mathlib

/-!
# Formal model of the `trainedml` package

A shallow embedding of the orchestration layer of the `trainedml`
repository: the metric evaluator, the benchmark runner, the `Trainer`
facade, the task-type detector, the dataset loader and the train/test
split contract.  Numeric values are modelled as rationals, label
sequences as `List Int`, tables as named string columns.
-/

namespace TrainedML

/-!
## Evaluation (`src/trainedml/evaluation.py`)

`Evaluator.evaluate_all` delegates to scikit-learn's
`accuracy_score` / `precision_score` / `recall_score` / `f1_score`
with `average='weighted'` and `zero_division=0`.  We embed those
metric semantics over integer label lists with rational values:
per-class precision/recall/F1 with zero-division resolving to 0,
averaged with class-support weights (support taken from `y_true`,
classes being the distinct labels occurring in `y_true` or `y_pred`).
-/

/-- Number of positions where the true and the predicted label agree. -/
def matchCount (y_true y_pred : List Int) : ℕ :=
  (y_true.zip y_pred).countP fun ab => ab.1 == ab.2

/-- `sklearn.metrics.accuracy_score`: fraction of agreeing positions. -/
def accuracy_score (y_true y_pred : List Int) : ℚ :=
  (matchCount y_true y_pred : ℚ) / (y_true.length : ℚ)

/-- The class labels considered by the averaged metrics: every distinct
label occurring in `y_true` or `y_pred`. -/
def classLabels (y_true y_pred : List Int) : List Int :=
  (y_true ++ y_pred).dedup

/-- True positives for class `k`: positions predicted `k` whose true label is `k`. -/
def truePos (y_true y_pred : List Int) (k : Int) : ℕ :=
  (y_true.zip y_pred).count (k, k)

/-- Per-class precision, with `zero_division=0`. -/
def precisionClass (y_true y_pred : List Int) (k : Int) : ℚ :=
  if y_pred.count k = 0 then 0
  else (truePos y_true y_pred k : ℚ) / (y_pred.count k : ℚ)

/-- Per-class recall, with `zero_division=0`. -/
def recallClass (y_true y_pred : List Int) (k : Int) : ℚ :=
  if y_true.count k = 0 then 0
  else (truePos y_true y_pred k : ℚ) / (y_true.count k : ℚ)

/-- Per-class F1, harmonic mean of per-class precision and recall,
with `zero_division=0`. -/
def f1Class (y_true y_pred : List Int) (k : Int) : ℚ :=
  if precisionClass y_true y_pred k + recallClass y_true y_pred k = 0 then 0
  else 2 * precisionClass y_true y_pred k * recallClass y_true y_pred k
        / (precisionClass y_true y_pred k + recallClass y_true y_pred k)

/-- Support-weighted average over the considered classes
(`average='weighted'`): `Σ_k support(k)·f(k) / Σ_k support(k)`, where
the total support is `y_true.length`. -/
def weightedAverage (y_true y_pred : List Int) (f : Int → ℚ) : ℚ :=
  ((classLabels y_true y_pred).map fun k => (y_true.count k : ℚ) * f k).sum
    / (y_true.length : ℚ)

/-- `sklearn.metrics.precision_score` with `average='weighted'`, `zero_division=0`. -/
def precision_score (y_true y_pred : List Int) : ℚ :=
  weightedAverage y_true y_pred (precisionClass y_true y_pred)

/-- `sklearn.metrics.recall_score` with `average='weighted'`, `zero_division=0`. -/
def recall_score (y_true y_pred : List Int) : ℚ :=
  weightedAverage y_true y_pred (recallClass y_true y_pred)

/-- `sklearn.metrics.f1_score` with `average='weighted'`, `zero_division=0`. -/
def f1_score (y_true y_pred : List Int) : ℚ :=
  weightedAverage y_true y_pred (f1Class y_true y_pred)

namespace Evaluator

/-- `Evaluator.evaluate_all` (`src/trainedml/evaluation.py`, lines 50-77):
returns the fixed-key mapping of the four classification metrics, as an
association list in the literal key order of the Python dict. -/
def evaluate_all (y_true y_pred : List Int) : List (String × ℚ) :=
  [("accuracy", accuracy_score y_true y_pred),
   ("precision", precision_score y_true y_pred),
   ("recall", recall_score y_true y_pred),
   ("f1", f1_score y_true y_pred)]

end Evaluator

/-! ### Bounds for the evaluator metrics -/

theorem matchCount_le_length (y_true y_pred : List Int) :
    matchCount y_true y_pred ≤ y_true.length := by
  calc matchCount y_true y_pred ≤ (y_true.zip y_pred).length := List.countP_le_length _
    _ ≤ y_true.length := by rw [List.length_zip]; exact Nat.min_le_left _ _

theorem accuracy_score_nonneg (y_true y_pred : List Int) :
    0 ≤ accuracy_score y_true y_pred := by
  unfold accuracy_score
  positivity

theorem accuracy_score_le_one (y_true y_pred : List Int) :
    accuracy_score y_true y_pred ≤ 1 := by
  unfold accuracy_score
  rcases Nat.eq_zero_or_pos y_true.length with h | h
  · simp [h]
  · rw [div_le_one (by exact_mod_cast h)]
    exact_mod_cast matchCount_le_length y_true y_pred

theorem truePos_le_count_pred (y_true y_pred : List Int) (k : Int)
    (hlen : y_true.length = y_pred.length) :
    truePos y_true y_pred k ≤ y_pred.count k := by
  unfold truePos
  have h1 : (y_true.zip y_pred).count (k, k)
      ≤ (y_true.zip y_pred).countP fun ab => ab.2 == k := by
    apply List.countP_mono_left
    intro x _ hx
    have : x = (k, k) := by simpa using hx
    simp [this]
  have h2 : ((y_true.zip y_pred).countP fun ab => ab.2 == k) = y_pred.count k := by
    have hm : (y_true.zip y_pred).map Prod.snd = y_pred :=
      List.map_snd_zip _ _ (le_of_eq hlen.symm)
    have : y_pred.count k = ((y_true.zip y_pred).map Prod.snd).count k := by rw [hm]
    rw [this, List.count, List.countP_map]
    rfl
  exact h2 ▸ h1

theorem truePos_le_count_true (y_true y_pred : List Int) (k : Int)
    (hlen : y_true.length = y_pred.length) :
    truePos y_true y_pred k ≤ y_true.count k := by
  unfold truePos
  have h1 : (y_true.zip y_pred).count (k, k)
      ≤ (y_true.zip y_pred).countP fun ab => ab.1 == k := by
    apply List.countP_mono_left
    intro x _ hx
    have : x = (k, k) := by simpa using hx
    simp [this]
  have h2 : ((y_true.zip y_pred).countP fun ab => ab.1 == k) = y_true.count k := by
    have hm : (y_true.zip y_pred).map Prod.fst = y_true :=
      List.map_fst_zip _ _ (le_of_eq hlen)
    have : y_true.count k = ((y_true.zip y_pred).map Prod.fst).count k := by rw [hm]
    rw [this, List.count, List.countP_map]
    rfl
  exact h2 ▸ h1

theorem precisionClass_nonneg (y_true y_pred : List Int) (k : Int) :
    0 ≤ precisionClass y_true y_pred k := by
  unfold precisionClass
  split
  · exact le_refl 0
  · positivity

theorem precisionClass_le_one (y_true y_pred : List Int) (k : Int)
    (hlen : y_true.length = y_pred.length) :
    precisionClass y_true y_pred k ≤ 1 := by
  unfold precisionClass
  split
  · exact zero_le_one
  · next h =>
    rw [div_le_one (by exact_mod_cast Nat.pos_of_ne_zero h)]
    exact_mod_cast truePos_le_count_pred y_true y_pred k hlen

theorem recallClass_nonneg (y_true y_pred : List Int) (k : Int) :
    0 ≤ recallClass y_true y_pred k := by
  unfold recallClass
  split
  · exact le_refl 0
  · positivity

theorem recallClass_le_one (y_true y_pred : List Int) (k : Int)
    (hlen : y_true.length = y_pred.length) :
    recallClass y_true y_pred k ≤ 1 := by
  unfold recallClass
  split
  · exact zero_le_one
  · next h =>
    rw [div_le_one (by exact_mod_cast Nat.pos_of_ne_zero h)]
    exact_mod_cast truePos_le_count_true y_true y_pred k hlen

theorem f1Class_nonneg (y_true y_pred : List Int) (k : Int) :
    0 ≤ f1Class y_true y_pred k := by
  unfold f1Class
  have hp := precisionClass_nonneg y_true y_pred k
  have hr := recallClass_nonneg y_true y_pred k
  split
  · exact le_refl 0
  · positivity

theorem f1Class_le_one (y_true y_pred : List Int) (k : Int)
    (hlen : y_true.length = y_pred.length) :
    f1Class y_true y_pred k ≤ 1 := by
  unfold f1Class
  have hp0 := precisionClass_nonneg y_true y_pred k
  have hp1 := precisionClass_le_one y_true y_pred k hlen
  have hr0 := recallClass_nonneg y_true y_pred k
  have hr1 := recallClass_le_one y_true y_pred k hlen
  split
  · exact zero_le_one
  · next h =>
    have hpos : 0 < precisionClass y_true y_pred k + recallClass y_true y_pred k :=
      lt_of_le_of_ne (by linarith) (Ne.symm h)
    rw [div_le_one hpos]
    nlinarith

/-- Summing the indicator of a single element of a duplicate-free list gives `1`. -/
theorem sum_map_indicator_eq_one (c : List Int) (a : Int) (hnd : c.Nodup) (ha : a ∈ c) :
    (c.map fun k => if a = k then (1 : ℚ) else 0).sum = 1 := by
  induction c with
  | nil => cases ha
  | cons b c ih =>
    rcases List.nodup_cons.mp hnd with ⟨hb, hnd'⟩
    by_cases hab : a = b
    · subst hab
      have hz : (c.map fun k => if a = k then (1 : ℚ) else 0).sum = 0 := by
        apply List.sum_eq_zero
        intro x hx
        rcases List.mem_map.mp hx with ⟨k, hk, rfl⟩
        have : a ≠ k := fun h => hb (h ▸ hk)
        simp [this]
      simp [hz]
    · have ha' : a ∈ c := by
        rcases List.mem_cons.mp ha with h | h
        · exact absurd h hab
        · exact h
      simp [hab, ih hnd' ha']

/-- The class supports taken over any duplicate-free list of labels covering
`y_true` sum to the total number of samples. -/
theorem sum_map_count_eq_length (c y_true : List Int) (hnd : c.Nodup)
    (hsub : ∀ x ∈ y_true, x ∈ c) :
    (c.map fun k => (y_true.count k : ℚ)).sum = (y_true.length : ℚ) := by
  induction y_true with
  | nil => simp
  | cons a t ih =>
    have ih' := ih (fun x hx => hsub x (List.mem_cons_of_mem _ hx))
    have hmap : (c.map fun k => ((a :: t).count k : ℚ))
        = c.map fun k => (t.count k : ℚ) + if a = k then (1 : ℚ) else 0 := by
      apply List.map_congr_left
      intro k _
      by_cases h : a = k
      · subst h
        push_cast [List.count_cons_self]
        simp
      · have hne : k ≠ a := fun hk => h hk.symm
        simp [List.count_cons_of_ne hne, h]
    rw [hmap, List.sum_map_add, ih',
      sum_map_indicator_eq_one c a hnd (hsub a (List.mem_cons_self a t))]
    push_cast [List.length_cons]
    ring

theorem classLabels_nodup (y_true y_pred : List Int) : (classLabels y_true y_pred).Nodup :=
  List.nodup_dedup _

theorem mem_classLabels_of_mem_true (y_true y_pred : List Int) {x : Int}
    (hx : x ∈ y_true) : x ∈ classLabels y_true y_pred := by
  unfold classLabels
  exact List.mem_dedup.mpr (List.mem_append_left _ hx)

theorem weightedAverage_nonneg (y_true y_pred : List Int) (f : Int → ℚ)
    (hf : ∀ k, 0 ≤ f k) : 0 ≤ weightedAverage y_true y_pred f := by
  unfold weightedAverage
  apply div_nonneg _ (by positivity)
  apply List.sum_nonneg
  intro x hx
  rcases List.mem_map.mp hx with ⟨k, _, rfl⟩
  exact mul_nonneg (by positivity) (hf k)

theorem weightedAverage_le_one (y_true y_pred : List Int) (f : Int → ℚ)
    (ht : y_true ≠ []) (hf : ∀ k, f k ≤ 1) :
    weightedAverage y_true y_pred f ≤ 1 := by
  unfold weightedAverage
  have hn : (0 : ℚ) < (y_true.length : ℚ) := by
    exact_mod_cast List.length_pos.mpr ht
  rw [div_le_one hn]
  calc ((classLabels y_true y_pred).map fun k => (y_true.count k : ℚ) * f k).sum
      ≤ ((classLabels y_true y_pred).map fun k => (y_true.count k : ℚ)).sum := by
        apply List.sum_le_sum
        intro k _
        calc (y_true.count k : ℚ) * f k ≤ (y_true.count k : ℚ) * 1 :=
              mul_le_mul_of_nonneg_left (hf k) (by positivity)
          _ = (y_true.count k : ℚ) := mul_one _
    _ = (y_true.length : ℚ) :=
        sum_map_count_eq_length _ _ (classLabels_nodup y_true y_pred)
          (fun x hx => mem_classLabels_of_mem_true y_true y_pred hx)

/-- **C2.** For every pair of equal-length, non-empty true/predicted label
sequences, `Evaluator.evaluate_all` returns a mapping with exactly the four
keys `accuracy`, `precision`, `recall`, `f1`, each value in `[0, 1]`
(precision, recall and f1 computed with weighted per-class averaging and
zero-division resolving to `0`); in particular for `y_true = [0,1,1,0]` and
`y_pred = [0,1,0,0]` the accuracy is `0.75`. -/
theorem evaluate_all_contract :
    (∀ y_true y_pred : List Int, y_true.length = y_pred.length → y_true ≠ [] →
      ((Evaluator.evaluate_all y_true y_pred).map Prod.fst
          = ["accuracy", "precision", "recall", "f1"]
        ∧ ∀ kv ∈ Evaluator.evaluate_all y_true y_pred, 0 ≤ kv.2 ∧ kv.2 ≤ 1))
    ∧ (Evaluator.evaluate_all [0, 1, 1, 0] [0, 1, 0, 0]).lookup "accuracy"
        = some (3 / 4) := by
  constructor
  · intro y_true y_pred hlen hne
    refine ⟨rfl, ?_⟩
    intro kv hkv
    have hacc : 0 ≤ accuracy_score y_true y_pred ∧ accuracy_score y_true y_pred ≤ 1 :=
      ⟨accuracy_score_nonneg _ _, accuracy_score_le_one _ _⟩
    have hprec : 0 ≤ precision_score y_true y_pred ∧ precision_score y_true y_pred ≤ 1 :=
      ⟨weightedAverage_nonneg _ _ _ (precisionClass_nonneg _ _),
       weightedAverage_le_one _ _ _ hne (fun k => precisionClass_le_one _ _ k hlen)⟩
    have hrec : 0 ≤ recall_score y_true y_pred ∧ recall_score y_true y_pred ≤ 1 :=
      ⟨weightedAverage_nonneg _ _ _ (recallClass_nonneg _ _),
       weightedAverage_le_one _ _ _ hne (fun k => recallClass_le_one _ _ k hlen)⟩
    have hf1 : 0 ≤ f1_score y_true y_pred ∧ f1_score y_true y_pred ≤ 1 :=
      ⟨weightedAverage_nonneg _ _ _ (f1Class_nonneg _ _),
       weightedAverage_le_one _ _ _ hne (fun k => f1Class_le_one _ _ k hlen)⟩
    simp only [Evaluator.evaluate_all, List.mem_cons, List.not_mem_nil, or_false] at hkv
    rcases hkv with rfl | rfl | rfl | rfl
    · exact hacc
    · exact hprec
    · exact hrec
    · exact hf1
  · rfl

/-- Witness for `evaluate_all_contract` at the concrete input from the spec. -/
theorem evaluate_all_contract_witness :
    (([0, 1, 1, 0] : List Int).length = ([0, 1, 0, 0] : List Int).length
      ∧ ([0, 1, 1, 0] : List Int) ≠ [])
    ∧ ((Evaluator.evaluate_all [0, 1, 1, 0] [0, 1, 0, 0]).map Prod.fst
        = ["accuracy", "precision", "recall", "f1"]
      ∧ ∀ kv ∈ Evaluator.evaluate_all [0, 1, 1, 0] [0, 1, 0, 0], 0 ≤ kv.2 ∧ kv.2 ≤ 1) :=
  ⟨⟨rfl, by decide⟩,
   evaluate_all_contract.1 [0, 1, 1, 0] [0, 1, 0, 0] rfl (by decide)⟩

/-!
## Benchmark (`src/trainedml/benchmark.py`)

A model handle exposes `fit(X, y)` followed by `predict(X)`.  Python
exceptions raised by `fit`/`predict` are modelled with `Except String`:
`fit` either fails or produces a fitted predictor, which either fails or
produces one label per test row.  Wall-clock measurement
(`time.time()` differences) is modelled by an oracle
`clock : String → ℚ × ℚ` giving each model's fit and predict durations;
distinct oracles model distinct wall-clock outcomes between runs.
-/

/-- One benchmark entry: `{'scores': ..., 'fit_time': ..., 'predict_time': ...}`. -/
structure RunResult where
  scores : List (String × ℚ)
  fit_time : ℚ
  predict_time : ℚ

/-- A model object as the benchmark uses it: `fit` mutates the model and
`predict` then maps test features to labels; both may raise. -/
structure MLModel (Tbl : Type) where
  fit : Tbl → List Int → Except String (Tbl → Except String (List Int))

/-- `_train_and_evaluate` (`benchmark.py`, lines 43-76): fit, predict,
evaluate one model, timing fit and predict. -/
def train_and_evaluate {Tbl : Type} (clock : ℚ × ℚ) (name : String) (model : MLModel Tbl)
    (X_train : Tbl) (y_train : List Int) (X_test : Tbl) (y_test : List Int) :
    Except String (String × RunResult) :=
  match model.fit X_train y_train with
  | .error e => .error e
  | .ok predictor =>
    match predictor X_test with
    | .error e => .error e
    | .ok y_pred =>
      .ok (name, ⟨Evaluator.evaluate_all y_test y_pred, clock.1, clock.2⟩)

/-- `results[name] = res`: Python dict assignment on the accumulated
result mapping (overwrite an existing key, else append). -/
def dictInsert (d : List (String × RunResult)) (k : String) (v : RunResult) :
    List (String × RunResult) :=
  if d.any fun p => p.1 == k then d.map fun p => if p.1 == k then (k, v) else p
  else d ++ [(k, v)]

/-- The `Benchmark` object: the model mapping and the stored results
(`None` until `run` completes). -/
structure Benchmark (Tbl : Type) where
  models : List (String × MLModel Tbl)
  results : Option (List (String × RunResult))

/-- The sequential branch of `Benchmark.run` (`benchmark.py`, lines
171-201): iterate the model mapping in order, inlining the same
fit/predict/evaluate computation as `_train_and_evaluate` and writing
each result under its model name; an exception aborts the loop. -/
def Benchmark.runSeqAux {Tbl : Type} (clock : String → ℚ × ℚ) (X_train : Tbl)
    (y_train : List Int) (X_test : Tbl) (y_test : List Int) :
    List (String × MLModel Tbl) → List (String × RunResult) →
    Except String (List (String × RunResult))
  | [], acc => .ok acc
  | (name, model) :: rest, acc =>
    match train_and_evaluate (clock name) name model X_train y_train X_test y_test with
    | .error e => .error e
    | .ok nr => Benchmark.runSeqAux clock X_train y_train X_test y_test rest
        (dictInsert acc nr.1 nr.2)

/-- The `joblib.Parallel` call of the parallel branch (`benchmark.py`,
lines 158-167): execute `_train_and_evaluate` for every model entry and
return the per-model results in submission order; a raised exception
propagates to the caller. -/
def collectResults {Tbl : Type} (clock : String → ℚ × ℚ) (X_train : Tbl)
    (y_train : List Int) (X_test : Tbl) (y_test : List Int) :
    List (String × MLModel Tbl) → Except String (List (String × RunResult))
  | [] => .ok []
  | (name, model) :: rest =>
    match train_and_evaluate (clock name) name model X_train y_train X_test y_test with
    | .error e => .error e
    | .ok nr =>
      match collectResults clock X_train y_train X_test y_test rest with
      | .error e => .error e
      | .ok prs => .ok (nr :: prs)

/-- `Benchmark.run` (`benchmark.py`, lines 120-204).  `parallel=True`
delegates the per-model units to `joblib.Parallel` and then writes the
returned results into the mapping by name; `parallel=False` runs the
loop in order on the calling thread.  On success the results are stored
on the object; a propagated exception leaves `self.results` unchanged. -/
def Benchmark.runCore {Tbl : Type} (b : Benchmark Tbl) (X_train : Tbl) (y_train : List Int)
    (X_test : Tbl) (y_test : List Int) (parallel : Bool) (clock : String → ℚ × ℚ) :
    Except String (List (String × RunResult)) :=
  if parallel then
    match collectResults clock X_train y_train X_test y_test b.models with
    | .error e => .error e
    | .ok prs => .ok (prs.foldl (fun acc nr => dictInsert acc nr.1 nr.2) [])
  else
    Benchmark.runSeqAux clock X_train y_train X_test y_test b.models []

/-- The returned value and the updated object state of `Benchmark.run`:
on success `self.results` is assigned; a propagated exception reaches the
caller before the assignment, leaving the object as it was. -/
def Benchmark.run {Tbl : Type} (b : Benchmark Tbl) (X_train : Tbl) (y_train : List Int)
    (X_test : Tbl) (y_test : List Int) (parallel : Bool) (clock : String → ℚ × ℚ) :
    Except String (List (String × RunResult)) × Benchmark Tbl :=
  match Benchmark.runCore b X_train y_train X_test y_test parallel clock with
  | .ok res => (.ok res, { b with results := some res })
  | .error e => (.error e, b)

theorem Benchmark.run_fst {Tbl : Type} (b : Benchmark Tbl) (X_train : Tbl)
    (y_train : List Int) (X_test : Tbl) (y_test : List Int) (parallel : Bool)
    (clock : String → ℚ × ℚ) :
    (b.run X_train y_train X_test y_test parallel clock).1
      = b.runCore X_train y_train X_test y_test parallel clock := by
  unfold Benchmark.run
  cases h : b.runCore X_train y_train X_test y_test parallel clock <;> simp [h]

/-! ### C1: sequential / parallel mode equivalence -/

/-- Forget the timing fields of one benchmark entry, keeping name and scores. -/
def stripEntry (nr : String × RunResult) : String × List (String × ℚ) :=
  (nr.1, nr.2.scores)

/-- Forget the timing fields of a result mapping: the comparison view of
"identical keys and identical metric values under `scores`". -/
def stripTimes (rs : List (String × RunResult)) : List (String × List (String × ℚ)) :=
  rs.map stripEntry

/-- `dictInsert` on the timing-free view. -/
def sInsert (d : List (String × List (String × ℚ))) (k : String) (s : List (String × ℚ)) :
    List (String × List (String × ℚ)) :=
  if d.any fun p => p.1 == k then d.map fun p => if p.1 == k then (k, s) else p
  else d ++ [(k, s)]

theorem exceptMap_exceptMap {α β γ ε : Type} (f : α → β) (g : β → γ) (x : Except ε α) :
    Except.map g (Except.map f x) = Except.map (fun a => g (f a)) x := by
  cases x <;> rfl

theorem stripTimes_dictInsert (d : List (String × RunResult)) (k : String) (v : RunResult) :
    stripTimes (dictInsert d k v) = sInsert (stripTimes d) k v.scores := by
  unfold dictInsert sInsert stripTimes
  have hany : ((d.map stripEntry).any fun p => p.1 == k) = d.any fun p => p.1 == k := by
    induction d with
    | nil => rfl
    | cons q d ihq => simp [List.any_cons, stripEntry, ihq]
  by_cases h : (d.any fun p => p.1 == k) = true
  · rw [if_pos h, if_pos (hany ▸ h), List.map_map, List.map_map]
    apply List.map_congr_left
    intro p _
    by_cases hp : (p.1 == k) = true
    · simp [Function.comp, stripEntry, hp]
    · simp [Function.comp, stripEntry, hp]
  · rw [if_neg h, if_neg (fun hc => h (hany ▸ hc)), List.map_append]
    rfl

theorem stripEntry_train_and_evaluate {Tbl : Type} (c c' : ℚ × ℚ) (name : String)
    (model : MLModel Tbl) (X_train : Tbl) (y_train : List Int) (X_test : Tbl)
    (y_test : List Int) :
    Except.map stripEntry (train_and_evaluate c name model X_train y_train X_test y_test)
      = Except.map stripEntry (train_and_evaluate c' name model X_train y_train X_test y_test) := by
  unfold train_and_evaluate
  cases model.fit X_train y_train with
  | error e => rfl
  | ok predictor =>
    dsimp only
    cases predictor X_test <;> rfl

theorem stripTimes_foldl_dictInsert (prs : List (String × RunResult)) :
    ∀ acc : List (String × RunResult),
      stripTimes (prs.foldl (fun a nr => dictInsert a nr.1 nr.2) acc)
        = (prs.map stripEntry).foldl (fun a nr => sInsert a nr.1 nr.2) (stripTimes acc) := by
  induction prs with
  | nil => intro acc; rfl
  | cons nr rest ih =>
    intro acc
    simp only [List.foldl_cons, List.map_cons]
    rw [ih, stripTimes_dictInsert]
    rfl

theorem runSeqAux_eq_collect {Tbl : Type} (clock : String → ℚ × ℚ) (X_train : Tbl)
    (y_train : List Int) (X_test : Tbl) (y_test : List Int)
    (models : List (String × MLModel Tbl)) :
    ∀ acc : List (String × RunResult),
      Benchmark.runSeqAux clock X_train y_train X_test y_test models acc
        = Except.map (fun prs => prs.foldl (fun a nr => dictInsert a nr.1 nr.2) acc)
            (collectResults clock X_train y_train X_test y_test models) := by
  induction models with
  | nil => intro acc; rfl
  | cons nm rest ih =>
    intro acc
    obtain ⟨n, m⟩ := nm
    show Benchmark.runSeqAux clock X_train y_train X_test y_test ((n, m) :: rest) acc = _
    rw [Benchmark.runSeqAux, collectResults]
    cases htae : train_and_evaluate (clock n) n m X_train y_train X_test y_test with
    | error e => rfl
    | ok nr =>
      dsimp only
      rw [ih]
      cases hrest : collectResults clock X_train y_train X_test y_test rest with
      | error e => rfl
      | ok prs => rfl

theorem collectResults_strip_clock {Tbl : Type} (c₁ c₂ : String → ℚ × ℚ) (X_train : Tbl)
    (y_train : List Int) (X_test : Tbl) (y_test : List Int)
    (models : List (String × MLModel Tbl)) :
    Except.map (List.map stripEntry)
        (collectResults c₁ X_train y_train X_test y_test models)
      = Except.map (List.map stripEntry)
          (collectResults c₂ X_train y_train X_test y_test models) := by
  induction models with
  | nil => rfl
  | cons nm rest ih =>
    obtain ⟨n, m⟩ := nm
    rw [collectResults, collectResults]
    have hc := stripEntry_train_and_evaluate (c₁ n) (c₂ n) n m X_train y_train X_test y_test
    cases h1 : train_and_evaluate (c₁ n) n m X_train y_train X_test y_test with
    | error e =>
      cases h2 : train_and_evaluate (c₂ n) n m X_train y_train X_test y_test with
      | error f =>
        rw [h1, h2] at hc
        cases hc
        rfl
      | ok nr2 => rw [h1, h2] at hc; cases hc
    | ok nr1 =>
      cases h2 : train_and_evaluate (c₂ n) n m X_train y_train X_test y_test with
      | error f => rw [h1, h2] at hc; cases hc
      | ok nr2 =>
        rw [h1, h2] at hc
        have hs : stripEntry nr1 = stripEntry nr2 := by
          simpa [Except.map] using hc
        cases hr1 : collectResults c₁ X_train y_train X_test y_test rest with
        | error e =>
          cases hr2 : collectResults c₂ X_train y_train X_test y_test rest with
          | error f =>
            rw [hr1, hr2] at ih
            cases ih
            rfl
          | ok prs2 => rw [hr1, hr2] at ih; cases ih
        | ok prs1 =>
          cases hr2 : collectResults c₂ X_train y_train X_test y_test rest with
          | error f => rw [hr1, hr2] at ih; cases ih
          | ok prs2 =>
            rw [hr1, hr2] at ih
            have hps : prs1.map stripEntry = prs2.map stripEntry := by
              simpa [Except.map] using ih
            simp [Except.map, hs, hps]

/-- **C1.** For every mapping of named models and every fixed train/test
split, `Benchmark.run` with `parallel=False` and with `parallel=True`
(under any two wall-clock outcomes) return result mappings with identical
keys and, per key, identical `scores`; only `fit_time`/`predict_time` may
differ.  Stated as: the timing-stripped views of the two returned values
coincide (and a propagated exception is likewise the same). -/
theorem benchmark_run_mode_equivalence {Tbl : Type} (b : Benchmark Tbl) (X_train : Tbl)
    (y_train : List Int) (X_test : Tbl) (y_test : List Int) (c₁ c₂ : String → ℚ × ℚ) :
    Except.map stripTimes (b.run X_train y_train X_test y_test false c₁).1
      = Except.map stripTimes (b.run X_train y_train X_test y_test true c₂).1 := by
  rw [Benchmark.run_fst, Benchmark.run_fst]
  unfold Benchmark.runCore
  simp only [Bool.false_eq_true, if_false, if_true]
  rw [runSeqAux_eq_collect]
  have hpar : (match collectResults c₂ X_train y_train X_test y_test b.models with
      | .error e => .error e
      | .ok prs => .ok (prs.foldl (fun acc nr => dictInsert acc nr.1 nr.2) []))
      = Except.map (fun prs => prs.foldl (fun acc nr => dictInsert acc nr.1 nr.2) [])
          (collectResults c₂ X_train y_train X_test y_test b.models) := by
    cases collectResults c₂ X_train y_train X_test y_test b.models <;> rfl
  rw [hpar, exceptMap_exceptMap, exceptMap_exceptMap]
  have hfold : (fun prs : List (String × RunResult) =>
        stripTimes (prs.foldl (fun a nr => dictInsert a nr.1 nr.2) []))
      = fun prs : List (String × RunResult) =>
          (prs.map stripEntry).foldl (fun a nr => sInsert a nr.1 nr.2) [] := by
    funext prs
    exact stripTimes_foldl_dictInsert prs []
  rw [hfold]
  have hsplit : ∀ c : String → ℚ × ℚ,
      Except.map (fun prs : List (String × RunResult) =>
          (prs.map stripEntry).foldl (fun a nr => sInsert a nr.1 nr.2) [])
        (collectResults c X_train y_train X_test y_test b.models)
      = Except.map (fun l => l.foldl (fun a nr => sInsert a nr.1 nr.2) [])
          (Except.map (List.map stripEntry)
            (collectResults c X_train y_train X_test y_test b.models)) := by
    intro c
    rw [exceptMap_exceptMap]
  rw [hsplit c₁, hsplit c₂, collectResults_strip_clock c₁ c₂]

/-! ### C6: a model failure aborts the whole run -/

theorem train_and_evaluate_error_of_fail {Tbl : Type} (c : ℚ × ℚ) (name : String)
    (m : MLModel Tbl) (X_train : Tbl) (y_train : List Int) (X_test : Tbl) (y_test : List Int)
    (hfail : (∃ e, m.fit X_train y_train = .error e)
      ∨ ∃ p, m.fit X_train y_train = .ok p ∧ ∃ e, p X_test = .error e) :
    ∃ e, train_and_evaluate c name m X_train y_train X_test y_test = .error e := by
  unfold train_and_evaluate
  rcases hfail with ⟨e, he⟩ | ⟨p, hp, e, he⟩
  · rw [he]
    exact ⟨e, rfl⟩
  · rw [hp]
    dsimp only
    rw [he]
    exact ⟨e, rfl⟩

theorem collectResults_error_of_mem {Tbl : Type} (clock : String → ℚ × ℚ) (X_train : Tbl)
    (y_train : List Int) (X_test : Tbl) (y_test : List Int)
    (models : List (String × MLModel Tbl)) (name : String) (m : MLModel Tbl)
    (hmem : (name, m) ∈ models)
    (hfail : (∃ e, m.fit X_train y_train = .error e)
      ∨ ∃ p, m.fit X_train y_train = .ok p ∧ ∃ e, p X_test = .error e) :
    ∃ e, collectResults clock X_train y_train X_test y_test models = .error e := by
  induction models with
  | nil => cases hmem
  | cons nm rest ih =>
    obtain ⟨n0, m0⟩ := nm
    rcases List.mem_cons.mp hmem with heq | htail
    · obtain ⟨rfl, rfl⟩ : name = n0 ∧ m = m0 := Prod.mk.injEq .. ▸ heq
      obtain ⟨e, hte⟩ :=
        train_and_evaluate_error_of_fail (clock name) name m X_train y_train X_test y_test hfail
      rw [collectResults, hte]
      exact ⟨e, rfl⟩
    · rw [collectResults]
      cases htae : train_and_evaluate (clock n0) n0 m0 X_train y_train X_test y_test with
      | error e => exact ⟨e, rfl⟩
      | ok nr =>
        obtain ⟨e, hrest⟩ := ih htail
        rw [hrest]
        exact ⟨e, rfl⟩

/-- **C6.** During `Benchmark.run`, if any single model's `fit` or
`predict` raises, the exception is not caught per-model: the whole run
(in either execution mode) returns the propagated error, and
`self.results` is left unchanged, so no model's results from that run are
reported. -/
theorem benchmark_run_failure_aborts {Tbl : Type} (b : Benchmark Tbl) (X_train : Tbl)
    (y_train : List Int) (X_test : Tbl) (y_test : List Int) (parallel : Bool)
    (clock : String → ℚ × ℚ) (name : String) (m : MLModel Tbl)
    (hmem : (name, m) ∈ b.models)
    (hfail : (∃ e, m.fit X_train y_train = .error e)
      ∨ ∃ p, m.fit X_train y_train = .ok p ∧ ∃ e, p X_test = .error e) :
    (∃ e, (b.run X_train y_train X_test y_test parallel clock).1 = .error e)
    ∧ (b.run X_train y_train X_test y_test parallel clock).2 = b := by
  obtain ⟨e, hcol⟩ := collectResults_error_of_mem clock X_train y_train X_test y_test
    b.models name m hmem hfail
  have hcore : b.runCore X_train y_train X_test y_test parallel clock = .error e := by
    unfold Benchmark.runCore
    cases parallel with
    | true =>
      simp only [if_true]
      rw [hcol]
    | false =>
      simp only [Bool.false_eq_true, if_false]
      rw [runSeqAux_eq_collect, hcol]
      rfl
  constructor
  · exact ⟨e, by rw [Benchmark.run_fst, hcore]⟩
  · unfold Benchmark.run
    rw [hcore]

/-- The always-failing model used to witness `benchmark_run_failure_aborts`. -/
def failingModel : MLModel Unit :=
  ⟨fun _ _ => .error "boom"⟩

/-- A benchmark over the single always-failing model. -/
def failingBench : Benchmark Unit :=
  ⟨[("bad", failingModel)], none⟩

/-- Witness for `benchmark_run_failure_aborts` at a concrete benchmark. -/
theorem benchmark_run_failure_aborts_witness :
    (("bad", failingModel) ∈ failingBench.models
      ∧ ((∃ e, failingModel.fit () [] = .error e)
        ∨ ∃ p, failingModel.fit () [] = .ok p ∧ ∃ e, p () = .error e))
    ∧ ((∃ e, (failingBench.run () [] () [] false (fun _ => (0, 0))).1 = .error e)
      ∧ (failingBench.run () [] () [] false (fun _ => (0, 0))).2 = failingBench) :=
  ⟨⟨List.mem_singleton.mpr rfl, Or.inl ⟨"boom", rfl⟩⟩,
   benchmark_run_failure_aborts failingBench () [] () [] false (fun _ => (0, 0))
     "bad" failingModel (List.mem_singleton.mpr rfl) (Or.inl ⟨"boom", rfl⟩)⟩

/-!
### C9: `Benchmark.summary` (`benchmark.py`, lines 206-241)

The summary formats each entry, tracks the best model by `accuracy`
(`res['scores'].get('accuracy', 0)` against a running best initialised
to `-1`), and appends a best-model block — guarded by Python truthiness
`if best_model:`, which is falsy both for `None` and for the empty
string.
-/

/-- Rendering of Python's `f"{value:.4f}"` (to the floor of the fourth
decimal) for the nonnegative values that occur in benchmark output. -/
def fmtFixed4 (q : ℚ) : String :=
  let scaled : Int := Int.floor (q * 10000)
  let fs := toString (scaled % 10000).toNat
  toString (scaled / 10000) ++ "." ++ String.mk (List.replicate (4 - fs.length) '0') ++ fs

/-- `scores.get(key, default)` on the metric dict. -/
def scoresGetD (scores : List (String × ℚ)) (k : String) (d : ℚ) : ℚ :=
  match scores.lookup k with
  | some v => v
  | none => d

/-- The `accuracy` ranking key of one entry:
`res['scores'].get('accuracy', 0)`. -/
def accOf (nr : String × RunResult) : ℚ :=
  scoresGetD nr.2.scores "accuracy" 0

/-- `"=" * 60`. -/
def eqSep : String := String.mk (List.replicate 60 '=')

/-- The fixed heading of the summary. -/
def headerLines : List String := [eqSep, "📊 RÉSUMÉ DU BENCHMARK", eqSep]

/-- The per-model lines of the summary body. -/
def entryLines (name : String) (res : RunResult) : List String :=
  ["\n🔹 " ++ name, String.mk (List.replicate 40 '-')]
  ++ res.scores.map (fun mv => "  " ++ mv.1 ++ ": " ++ fmtFixed4 mv.2)
  ++ ["  ⏱️ fit_time: " ++ fmtFixed4 res.fit_time ++ "s",
      "  ⏱️ predict_time: " ++ fmtFixed4 res.predict_time ++ "s"]

/-- One iteration of the summary loop: append the entry's lines and
update `(best_model, best_accuracy)` when this entry's accuracy is
strictly greater. -/
def summaryStep (st : List String × Option String × ℚ) (nr : String × RunResult) :
    List String × Option String × ℚ :=
  if accOf nr > st.2.2
  then (st.1 ++ entryLines nr.1 nr.2, some nr.1, accOf nr)
  else (st.1 ++ entryLines nr.1 nr.2, st.2.1, st.2.2)

/-- The summary loop over all result entries, started from the heading
with `best_model = None`, `best_accuracy = -1`. -/
def summaryCore (rs : List (String × RunResult)) : List String × Option String × ℚ :=
  rs.foldl summaryStep (headerLines, none, -1)

/-- The best-model block appended when `best_model` is truthy. -/
def bestBlockLines (n : String) (a : ℚ) : List String :=
  ["\n" ++ eqSep, "🏆 MEILLEUR MODÈLE: " ++ n ++ " (accuracy: " ++ fmtFixed4 a ++ ")", eqSep]

/-- The line list `Benchmark.summary` joins: `None` without stored
results; otherwise the body plus — when `best_model` is truthy — the
best-model block. -/
def Benchmark.summaryLines {Tbl : Type} (b : Benchmark Tbl) : Option (List String) :=
  match b.results with
  | none => none
  | some rs =>
    match (summaryCore rs).2.1 with
    | some n =>
      if n = "" then some (summaryCore rs).1
      else some ((summaryCore rs).1 ++ bestBlockLines n (summaryCore rs).2.2)
    | none => some (summaryCore rs).1

/-- `Benchmark.summary`: the joined text and the (unmodified) object state. -/
def Benchmark.summary {Tbl : Type} (b : Benchmark Tbl) : Option String × Benchmark Tbl :=
  ((Benchmark.summaryLines b).map (String.intercalate "\n"), b)

/-- The best-model tracking of the summary loop: either no entry beat the
running best, or the tracked model is an entry of the list whose accuracy
equals the final best and bounds every entry. -/
theorem summary_fold_best (rs : List (String × RunResult)) :
    ∀ (L : List String) (bn : Option String) (ba : ℚ),
      ((rs.foldl summaryStep (L, bn, ba)).2.1 = bn
        ∧ (rs.foldl summaryStep (L, bn, ba)).2.2 = ba
        ∧ ∀ nr ∈ rs, accOf nr ≤ ba)
      ∨ (∃ nm r, (rs.foldl summaryStep (L, bn, ba)).2.1 = some nm
          ∧ (nm, r) ∈ rs
          ∧ accOf (nm, r) = (rs.foldl summaryStep (L, bn, ba)).2.2
          ∧ ba < (rs.foldl summaryStep (L, bn, ba)).2.2
          ∧ ∀ nr ∈ rs, accOf nr ≤ (rs.foldl summaryStep (L, bn, ba)).2.2) := by
  induction rs with
  | nil =>
    intro L bn ba
    exact Or.inl ⟨rfl, rfl, by simp⟩
  | cons nr rest ih =>
    intro L bn ba
    rw [List.foldl_cons]
    by_cases hc : accOf nr > ba
    · have hstep : summaryStep (L, bn, ba) nr
          = (L ++ entryLines nr.1 nr.2, some nr.1, accOf nr) := by
        unfold summaryStep
        rw [if_pos hc]
      rw [hstep]
      rcases ih (L ++ entryLines nr.1 nr.2) (some nr.1) (accOf nr) with
        ⟨h1, h2, h3⟩ | ⟨nm, r, h1, h2, h3, h4, h5⟩
      · refine Or.inr ⟨nr.1, nr.2, h1, ?_, ?_, ?_, ?_⟩
        · exact List.mem_cons_self nr rest
        · rw [h2]
        · rw [h2]; exact hc
        · intro x hx
          rcases List.mem_cons.mp hx with rfl | hx
          · rw [h2]
          · exact (h3 x hx).trans (le_of_eq h2.symm)
      · refine Or.inr ⟨nm, r, h1, List.mem_cons_of_mem _ h2, h3, lt_trans hc h4, ?_⟩
        intro x hx
        rcases List.mem_cons.mp hx with rfl | hx
        · exact le_of_lt h4
        · exact h5 x hx
    · have hstep : summaryStep (L, bn, ba) nr
          = (L ++ entryLines nr.1 nr.2, bn, ba) := by
        unfold summaryStep
        rw [if_neg hc]
      rw [hstep]
      rcases ih (L ++ entryLines nr.1 nr.2) bn ba with
        ⟨h1, h2, h3⟩ | ⟨nm, r, h1, h2, h3, h4, h5⟩
      · refine Or.inl ⟨h1, h2, ?_⟩
        intro x hx
        rcases List.mem_cons.mp hx with rfl | hx
        · exact le_of_not_lt hc
        · exact h3 x hx
      · refine Or.inr ⟨nm, r, h1, List.mem_cons_of_mem _ h2, h3, h4, ?_⟩
        intro x hx
        rcases List.mem_cons.mp hx with rfl | hx
        · exact le_trans (le_of_not_lt hc) (le_of_lt h4)
        · exact h5 x hx

/-- **C9 (amended).** For every non-empty benchmark result mapping whose
accuracy values are nonnegative (as `run` produces) and whose tracked
best model has a non-empty (truthy) name, `summary` appends a best-model
block naming an entry whose accuracy is maximal over all entries, and it
leaves the benchmark object unchanged. -/
theorem benchmark_summary_names_best {Tbl : Type} (b : Benchmark Tbl)
    (rs : List (String × RunResult))
    (hres : b.results = some rs) (hne : rs ≠ [])
    (hpos : ∀ nr ∈ rs, 0 ≤ accOf nr)
    (hname : (summaryCore rs).2.1 ≠ some "") :
    ∃ nm a r, (nm, r) ∈ rs ∧ accOf (nm, r) = a
      ∧ (∀ nr ∈ rs, accOf nr ≤ a)
      ∧ Benchmark.summary b
          = (some (String.intercalate "\n" ((summaryCore rs).1 ++ bestBlockLines nm a)), b) := by
  rcases summary_fold_best rs headerLines none (-1) with
    ⟨h1, h2, h3⟩ | ⟨nm, r, h1, h2, h3, h4, h5⟩
  · obtain ⟨nr, hnr⟩ := List.exists_mem_of_ne_nil rs hne
    have := h3 nr hnr
    have := hpos nr hnr
    exfalso
    linarith
  · have hfold1 : (summaryCore rs).2.1 = some nm := h1
    have hnm : nm ≠ "" := by
      intro h
      exact hname (h ▸ hfold1)
    refine ⟨nm, (summaryCore rs).2.2, r, h2, h3, h5, ?_⟩
    unfold Benchmark.summary Benchmark.summaryLines
    rw [hres]
    dsimp only
    rw [hfold1]
    dsimp only
    rw [if_neg hnm]
    rfl

/-- Witness data for `benchmark_summary_names_best`. -/
def witnessResults : List (String × RunResult) :=
  [("knn", ⟨[("accuracy", 1)], 0, 0⟩)]

/-- Witness benchmark with stored results. -/
def witnessBench : Benchmark Unit :=
  ⟨[], some witnessResults⟩

/-- Witness for `benchmark_summary_names_best` at a concrete benchmark. -/
theorem benchmark_summary_names_best_witness :
    (witnessBench.results = some witnessResults
      ∧ witnessResults ≠ []
      ∧ (∀ nr ∈ witnessResults, 0 ≤ accOf nr)
      ∧ (summaryCore witnessResults).2.1 ≠ some "")
    ∧ ∃ nm a r, (nm, r) ∈ witnessResults ∧ accOf (nm, r) = a
      ∧ (∀ nr ∈ witnessResults, accOf nr ≤ a)
      ∧ Benchmark.summary witnessBench
          = (some (String.intercalate "\n"
              ((summaryCore witnessResults).1 ++ bestBlockLines nm a)), witnessBench) := by
  have hne : witnessResults ≠ [] := by simp [witnessResults]
  have hpos : ∀ nr ∈ witnessResults, 0 ≤ accOf nr := by
    intro nr hnr
    simp only [witnessResults, List.mem_singleton] at hnr
    subst hnr
    norm_num [accOf, scoresGetD, List.lookup]
  have hname : (summaryCore witnessResults).2.1 ≠ some "" := by
    have hcore : (summaryCore witnessResults).2.1 = some "knn" := by
      have hacc : accOf ("knn", (⟨[("accuracy", 1)], 0, 0⟩ : RunResult)) = 1 := by
        norm_num [accOf, scoresGetD, List.lookup]
      have hgt : accOf ("knn", (⟨[("accuracy", 1)], 0, 0⟩ : RunResult)) > -1 := by
        rw [hacc]
        norm_num
      unfold summaryCore witnessResults
      rw [List.foldl_cons, List.foldl_nil]
      unfold summaryStep
      rw [if_pos hgt]
    rw [hcore]
    simp
  exact ⟨⟨rfl, hne, hpos, hname⟩,
    benchmark_summary_names_best witnessBench witnessResults rfl hne hpos hname⟩

/-- The counterexample data: one result entry whose model name is the
empty string. -/
def emptyNameResults : List (String × RunResult) :=
  [("", ⟨[("accuracy", 1)], 0, 0⟩)]

/-- The counterexample benchmark holding that mapping. -/
def emptyNameBench : Benchmark Unit :=
  ⟨[], some emptyNameResults⟩

/-- **C9 (counterexample).** A non-empty result mapping whose single —
hence maximal — entry is named `""`: Python's `if best_model:`
truthiness check skips the best-model block, so the summary text of this
non-empty mapping names no best model, refuting the claim as stated.
(The body lines are `(summaryCore emptyNameResults).1`; no
`bestBlockLines` block is appended for any candidate name.) -/
theorem benchmark_summary_counterexample :
    emptyNameResults ≠ []
    ∧ (∀ nr ∈ emptyNameResults, 0 ≤ accOf nr)
    ∧ (summaryCore emptyNameResults).2.1 = some ""
    ∧ Benchmark.summaryLines emptyNameBench = some (summaryCore emptyNameResults).1
    ∧ ∀ nm a, Benchmark.summaryLines emptyNameBench
        ≠ some ((summaryCore emptyNameResults).1 ++ bestBlockLines nm a) := by
  have hacc : accOf ("", (⟨[("accuracy", 1)], 0, 0⟩ : RunResult)) = 1 := by
    norm_num [accOf, scoresGetD, List.lookup]
  have hgt : accOf ("", (⟨[("accuracy", 1)], 0, 0⟩ : RunResult)) > -1 := by
    rw [hacc]
    norm_num
  have hcore : (summaryCore emptyNameResults).2.1 = some "" := by
    unfold summaryCore emptyNameResults
    rw [List.foldl_cons, List.foldl_nil]
    unfold summaryStep
    rw [if_pos hgt]
  have hlinesEq : Benchmark.summaryLines emptyNameBench
      = some (summaryCore emptyNameResults).1 := by
    show (match (emptyNameBench.results : Option (List (String × RunResult))) with
      | none => none
      | some rs =>
        match (summaryCore rs).2.1 with
        | some n =>
          if n = "" then some (summaryCore rs).1
          else some ((summaryCore rs).1 ++ bestBlockLines n (summaryCore rs).2.2)
        | none => some (summaryCore rs).1) = some (summaryCore emptyNameResults).1
    show (match (summaryCore emptyNameResults).2.1 with
      | some n =>
        if n = "" then some (summaryCore emptyNameResults).1
        else some ((summaryCore emptyNameResults).1
          ++ bestBlockLines n (summaryCore emptyNameResults).2.2)
      | none => some (summaryCore emptyNameResults).1)
        = some (summaryCore emptyNameResults).1
    rw [hcore]
    rfl
  refine ⟨by simp [emptyNameResults], ?_, hcore, hlinesEq, ?_⟩
  · intro nr hnr
    simp only [emptyNameResults, List.mem_singleton] at hnr
    subst hnr
    rw [hacc]
    norm_num
  · intro nm a h
    rw [hlinesEq] at h
    have hinj := Option.some.injEq .. ▸ h
    have hlen := congrArg List.length hinj
    rw [List.length_append] at hlen
    have : (bestBlockLines nm a).length = 3 := rfl
    omega

/-!
## Trainer (`src/trainedml/__init__.py`)

The `Trainer` facade holds a model object, the four split datasets and
the `is_fitted` flag.  The underlying estimator's behaviour is the
abstract state type `E` together with a `predict` function supplied as a
parameter; `evaluate`/`predict` guard on `is_fitted` *before* any
delegation, raising `RuntimeError` with the French "must be trained"
messages.  Each operation returns its result (or raised error) together
with the object state after the call.
-/

/-- The `Trainer` object state. -/
structure Trainer (Tbl E : Type) where
  model_name : String
  model : E
  X_train : Option Tbl
  X_test : Option Tbl
  y_train : Option (List Int)
  y_test : Option (List Int)
  is_fitted : Bool

/-- `Trainer.evaluate` (`__init__.py`, lines 127-144): raise the
"not trained" precondition error unless fitted, else delegate to
`self.model.predict` and score with `Evaluator.evaluate_all`. -/
def Trainer.evaluate {Tbl E : Type} (predictE : E → Tbl → List Int) (t : Trainer Tbl E) :
    Except String (List (String × ℚ)) × Trainer Tbl E :=
  if t.is_fitted = false then
    (.error "Le modèle doit être entraîné avant l'évaluation.", t)
  else
    match t.X_test, t.y_test with
    | some xte, some yte => (.ok (Evaluator.evaluate_all yte (predictE t.model xte)), t)
    | _, _ => (.error "NoneType", t)

/-- `Trainer.predict` (`__init__.py`, lines 146-169): raise the
"not trained" precondition error unless fitted, else delegate to
`self.model.predict` on the given features. -/
def Trainer.predict {Tbl E : Type} (predictE : E → Tbl → List Int) (t : Trainer Tbl E)
    (X : Tbl) : Except String (List Int) × Trainer Tbl E :=
  if t.is_fitted = false then
    (.error "Le modèle doit être entraîné avant la prédiction.", t)
  else
    (.ok (predictE t.model X), t)

/-- **C3.** On every `Trainer` on which `fit` has not been called,
`evaluate()` and `predict(X)` fail with the distinct "not trained"
precondition errors, perform no computation (the outcome is the same for
every underlying estimator behaviour, i.e. the check precedes any
delegation), and leave the trainer state unchanged. -/
theorem trainer_unfitted_guard {Tbl E : Type} (t : Trainer Tbl E) (X : Tbl)
    (predictE₁ predictE₂ : E → Tbl → List Int)
    (hunfit : t.is_fitted = false) :
    Trainer.evaluate predictE₁ t
        = (.error "Le modèle doit être entraîné avant l'évaluation.", t)
    ∧ Trainer.predict predictE₂ t X
        = (.error "Le modèle doit être entraîné avant la prédiction.", t)
    ∧ ("Le modèle doit être entraîné avant l'évaluation." : String)
        ≠ "Le modèle doit être entraîné avant la prédiction." := by
  refine ⟨?_, ?_, by decide⟩
  · unfold Trainer.evaluate
    rw [if_pos hunfit]
  · unfold Trainer.predict
    rw [if_pos hunfit]

/-- An unfitted trainer over trivial table and estimator types. -/
def unfittedTrainer : Trainer Unit Unit :=
  ⟨"random_forest", (), none, none, none, none, false⟩

/-- Witness for `trainer_unfitted_guard` at a concrete unfitted trainer. -/
theorem trainer_unfitted_guard_witness :
    unfittedTrainer.is_fitted = false
    ∧ (Trainer.evaluate (fun _ _ => []) unfittedTrainer
          = (.error "Le modèle doit être entraîné avant l'évaluation.", unfittedTrainer)
      ∧ Trainer.predict (fun _ _ => ([0] : List Int)) unfittedTrainer ()
          = (.error "Le modèle doit être entraîné avant la prédiction.", unfittedTrainer)
      ∧ ("Le modèle doit être entraîné avant l'évaluation." : String)
          ≠ "Le modèle doit être entraîné avant la prédiction.") :=
  ⟨rfl, trainer_unfitted_guard unfittedTrainer () (fun _ _ => [])
    (fun _ _ => ([0] : List Int)) rfl⟩

/-!
## Task-type detector (`src/trainedml/cli.py`, `_is_classification_target`, lines 46-75)

A pandas target column is modelled by its dtype together with its
values: `object` and categorical columns hold strings, integer-dtype
columns hold integers, float-dtype columns hold rationals.
-/

/-- A pandas `Series` as the detector inspects it. -/
inductive Series where
  | obj (vals : List String)
  | cat (vals : List String)
  | ints (vals : List Int)
  | floats (vals : List ℚ)

/-- `y.dtype == 'object' or isinstance(y.dtype, pd.CategoricalDtype)`. -/
def Series.isObjectOrCategorical : Series → Bool
  | .obj _ => true
  | .cat _ => true
  | .ints _ => false
  | .floats _ => false

/-- `len(y.unique())`. -/
def Series.uniqueCount : Series → ℕ
  | .obj v => v.dedup.length
  | .cat v => v.dedup.length
  | .ints v => v.dedup.length
  | .floats v => v.dedup.length

/-- `np.issubdtype(y.dtype, np.integer)`. -/
def Series.isIntegerDtype : Series → Bool
  | .ints _ => true
  | .obj _ => false
  | .cat _ => false
  | .floats _ => false

/-- `_is_classification_target`: object/categorical dtype, else at most
20 unique values and an integer dtype, else regression. -/
def is_classification_target (y : Series) : Bool :=
  if y.isObjectOrCategorical then true
  else if y.uniqueCount ≤ 20 ∧ y.isIntegerDtype = true then true
  else false

/-- The claim's wording of the second heuristic: the column's values are
all integer-valued (integral), regardless of the dtype they are stored in. -/
def Series.allIntegerValued : Series → Bool
  | .obj _ => false
  | .cat _ => false
  | .ints _ => true
  | .floats v => v.all fun q => q.den = 1

/-- The task-type rule exactly as the claim states it: non-numeric →
classification; else numeric with at most 20 distinct values and
all-integer-valued → classification; otherwise regression. -/
def claimClassificationRule (y : Series) : Bool :=
  if y.isObjectOrCategorical then true
  else if y.uniqueCount ≤ 20 ∧ y.allIntegerValued = true then true
  else false

/-- The float-dtype column `[1.0, 2.0, 3.0]`: 3 distinct values, all
integer-valued. -/
def floatIntegralColumn : Series := Series.floats [1, 2, 3]

theorem is_classification_target_floats (v : List ℚ) :
    is_classification_target (Series.floats v) = false := by
  unfold is_classification_target
  simp [Series.isObjectOrCategorical, Series.isIntegerDtype]

/-- **C4 (counterexample).** On the float-dtype column `[1.0, 2.0, 3.0]`
— numeric, 3 distinct values, all integer-valued — the claim's rule says
classification but `_is_classification_target` returns regression: the
code tests the dtype (`np.issubdtype(y.dtype, np.integer)`), not whether
the values are integer-valued. -/
theorem task_detector_counterexample :
    is_classification_target floatIntegralColumn = false
    ∧ claimClassificationRule floatIntegralColumn = true
    ∧ floatIntegralColumn.uniqueCount = 3
    ∧ floatIntegralColumn.allIntegerValued = true := by
  refine ⟨is_classification_target_floats _, ?_, ?_, ?_⟩
  · unfold claimClassificationRule floatIntegralColumn
    rw [if_neg (by simp [Series.isObjectOrCategorical]), if_pos]
    constructor
    · show (Series.floats [1, 2, 3]).uniqueCount ≤ 20
      norm_num [Series.uniqueCount, List.dedup]
    · norm_num [Series.allIntegerValued]
  · norm_num [floatIntegralColumn, Series.uniqueCount, List.dedup]
  · norm_num [floatIntegralColumn, Series.allIntegerValued]

/-- The amended rule, in the claim's three-branch order, with the second
heuristic corrected to "stored in an integer dtype": non-numeric →
classification; integer dtype with at most 20 distinct values →
classification; otherwise regression. -/
def amendedClassificationRule : Series → Bool
  | .obj _ => true
  | .cat _ => true
  | .ints v => decide (v.dedup.length ≤ 20)
  | .floats _ => false

/-- A float column with 1000 distinct values. -/
def thousandValues : List ℚ :=
  List.map (fun k : ℕ => (k : ℚ)) (List.range 1000)

theorem thousandValues_uniqueCount : (Series.floats thousandValues).uniqueCount = 1000 := by
  have hinj : Function.Injective (fun k : ℕ => (k : ℚ)) := fun a b h => by
    have : ((a : ℚ)) = (b : ℚ) := h
    exact_mod_cast this
  have hnd : thousandValues.Nodup := by
    unfold thousandValues
    exact List.Nodup.map hinj (List.nodup_range 1000)
  show thousandValues.dedup.length = 1000
  rw [List.dedup_eq_self.mpr hnd]
  unfold thousandValues
  rw [List.length_map, List.length_range]

/-- **C4 (amended).** The detector classifies in the claim's order with
the second heuristic reading "integer dtype" instead of
"all-integer-valued": text/categorical → classification; integer dtype
with at most 20 distinct values → classification; otherwise regression.
In particular a text column is classification, an integer column with 3
distinct values is classification, and a float column with 1000 distinct
values is regression. -/
theorem task_detector_amended :
    (∀ y : Series, is_classification_target y = amendedClassificationRule y)
    ∧ is_classification_target (Series.obj ["setosa", "versicolor", "setosa"]) = true
    ∧ (Series.ints [1, 2, 3, 2, 1]).uniqueCount = 3
    ∧ is_classification_target (Series.ints [1, 2, 3, 2, 1]) = true
    ∧ (Series.floats thousandValues).uniqueCount = 1000
    ∧ is_classification_target (Series.floats thousandValues) = false := by
  refine ⟨?_, rfl, ?_, ?_, thousandValues_uniqueCount,
    is_classification_target_floats _⟩
  · intro y
    cases y with
    | obj v => rfl
    | cat v => rfl
    | ints v =>
      unfold is_classification_target amendedClassificationRule
      simp [Series.isObjectOrCategorical, Series.isIntegerDtype, Series.uniqueCount]
    | floats v =>
      rw [is_classification_target_floats]
      rfl
  · norm_num [Series.uniqueCount, List.dedup]
  · unfold is_classification_target
    rw [if_neg (by simp [Series.isObjectOrCategorical]), if_pos]
    constructor
    · show (Series.ints [1, 2, 3, 2, 1]).uniqueCount ≤ 20
      norm_num [Series.uniqueCount, List.dedup]
    · rfl

/-!
## Train/test split

`Trainer.load_data` (`__init__.py`, lines 105-109) and `cli.main`
(`cli.py`, line 100) split rows with
`sklearn.model_selection.train_test_split(X, y, test_size, random_state)`,
an external collaborator whose code is not part of this repository.
-/

/-- One step of a linear congruential pseudo-random sequence, standing in
for the seeded random state. -/
def lcgNext (s : ℕ) : ℕ :=
  (1103515245 * s + 12345) % 2147483648

/-- Draw all elements of `l` one by one in a pseudo-random,
seed-determined order: a permutation of `l` that is a pure function of
the seed. -/
def drawAll (s : ℕ) (l : List ℕ) : List ℕ :=
  if h : l = [] then []
  else
    (l.get ⟨s % l.length, Nat.mod_lt s (List.length_pos.mpr h)⟩)
      :: drawAll (lcgNext s) (l.erase (l.get ⟨s % l.length, Nat.mod_lt s (List.length_pos.mpr h)⟩))
termination_by l.length
decreasing_by
  rw [List.length_erase_of_mem (List.get_mem l _ _)]
  have : 0 < l.length := List.length_pos.mpr h
  omega

/-- Modelled from the spec: `sklearn.model_selection.train_test_split`
is an external collaborator absent from the repository.  Per the spec
the split is "produced deterministically from a dataset given a test
fraction and a random seed": a seed-determined permutation of the `n`
row indices is drawn, the first `⌈test_size · n⌉` of them form the test
rows and the remainder the train rows (sklearn's test-count rounding),
returned as `(train, test)`. -/
def train_test_split (n : ℕ) (test_size : ℚ) (seed : ℕ) : List ℕ × List ℕ :=
  let nTest := Nat.ceil (test_size * n)
  let perm := drawAll seed (List.range n)
  (perm.drop nTest, perm.take nTest)

theorem drawAll_perm_aux :
    ∀ (n : ℕ) (l : List ℕ), l.length ≤ n → ∀ s, (drawAll s l).Perm l := by
  intro n
  induction n with
  | zero =>
    intro l hl s
    have hnil : l = [] := List.length_eq_zero.mp (Nat.le_zero.mp hl)
    subst hnil
    rw [drawAll]
    simp
  | succ n ih =>
    intro l hl s
    by_cases h : l = []
    · subst h
      rw [drawAll]
      simp
    · rw [drawAll, dif_neg h]
      have hm : l.get ⟨s % l.length, Nat.mod_lt s (List.length_pos.mpr h)⟩ ∈ l :=
        List.get_mem l _ _
      have hrec : (l.erase (l.get ⟨s % l.length, Nat.mod_lt s (List.length_pos.mpr h)⟩)).length ≤ n := by
        rw [List.length_erase_of_mem hm]
        omega
      exact ((ih _ hrec (lcgNext s)).cons _).trans (List.perm_cons_erase hm).symm

theorem drawAll_perm (s : ℕ) (l : List ℕ) : (drawAll s l).Perm l :=
  drawAll_perm_aux l.length l (le_refl _) s

/-- **C5.** For a 150-row dataset split with `test_size = 0.3` and any
fixed seed: the train partition has exactly 105 rows and the test
partition exactly 45, the two row-index sets are disjoint, their union
is exactly the original row set, and re-running the split with the same
seed reproduces the same partition. -/
theorem split_150_invariants (seed : ℕ) :
    (train_test_split 150 (3 / 10) seed).1.length = 105
    ∧ (train_test_split 150 (3 / 10) seed).2.length = 45
    ∧ (train_test_split 150 (3 / 10) seed).1.Disjoint (train_test_split 150 (3 / 10) seed).2
    ∧ ((train_test_split 150 (3 / 10) seed).1 ++ (train_test_split 150 (3 / 10) seed).2).Perm
        (List.range 150)
    ∧ train_test_split 150 (3 / 10) seed = train_test_split 150 (3 / 10) seed := by
  have hceil : Nat.ceil ((3 / 10 : ℚ) * ((150 : ℕ) : ℚ)) = 45 := by
    norm_num
  have hperm : (drawAll seed (List.range 150)).Perm (List.range 150) :=
    drawAll_perm seed (List.range 150)
  have hlen : (drawAll seed (List.range 150)).length = 150 := by
    rw [hperm.length_eq, List.length_range]
  have hnd : (drawAll seed (List.range 150)).Nodup :=
    (hperm.nodup_iff).mpr (List.nodup_range 150)
  unfold train_test_split
  dsimp only
  rw [hceil]
  refine ⟨?_, ?_, ?_, ?_, rfl⟩
  · rw [List.length_drop, hlen]
  · rw [List.length_take, hlen]
    rfl
  · intro a hdrop htake
    exact (List.disjoint_take_drop hnd (le_refl 45)) htake hdrop
  · exact (List.perm_append_comm.trans (by rw [List.take_append_drop])).trans hperm

/-!
## Dataset loader (`src/trainedml/data/loader.py`)

A downloaded table is modelled as named string columns.  The two network
entry points are abstracted as parameters: `fetchCsv url sep` stands for
`load_csv_from_url` (a `pooch.retrieve` download followed by
`pd.read_csv(fname, sep=sep)`), and `readRaw url` for the direct
`pd.read_csv(url, header=None, names=...)` of the wine branch
(positional columns, named afterwards).  Every network access performed
by `load_dataset` is recorded as a `(url, sep)` pair in the second
component of the result.
-/

/-- A parsed CSV: named columns of string cells. -/
abbrev DataFrame := List (String × List String)

/-- The column names of a table. -/
def DataFrame.columns (df : DataFrame) : List String :=
  df.map Prod.fst

/-- `df.drop(columns=[t])`, once `t` is known to exist. -/
def DataFrame.dropCol (df : DataFrame) (t : String) : DataFrame :=
  df.filter fun c => !(c.1 == t)

/-- `df[t]`, once `t` is known to exist. -/
def DataFrame.getCol (df : DataFrame) (t : String) : List String :=
  (df.lookup t).getD []

/-- The pandas `KeyError` raised by `df.drop(columns=[t])` for a missing
column `t`. -/
def keyErrorMsg (t : String) : String :=
  "['" ++ t ++ "'] not found in axis"

/-- The hardcoded Iris location. -/
def irisUrl : String :=
  "https://raw.githubusercontent.com/mwaskom/seaborn-data/master/iris.csv"

/-- The hardcoded Wine location. -/
def wineUrl : String :=
  "https://archive.ics.uci.edu/ml/machine-learning-databases/wine/wine.data"

/-- The fixed Wine column names. -/
def wineCols : List String :=
  ["class", "alcohol", "malic_acid", "ash", "alcalinity_of_ash", "magnesium",
   "total_phenols", "flavanoids", "nonflavanoid_phenols", "proanthocyanins",
   "color_intensity", "hue", "od280/od315_of_diluted_wines", "proline"]

/-- The `sep_to_use` logic of the generic branch (`loader.py`, lines
193-198): an explicit `sep` is used unchanged; otherwise `';'` when the
substring `"winequality"` occurs in the url, else `','`. -/
def sepToUse (sep : Option String) (url : String) : String :=
  match sep with
  | some s => s
  | none => if "winequality".toList <:+: url.toList then ";" else ","

namespace DataLoader

/-- `DataLoader.load_dataset` (`loader.py`, lines 125-204): resolve a
known dataset name or a url+target pair to `(X, y)`; unknown
configurations raise `ValueError` before any download; a missing target
column raises the pandas `KeyError` of `df.drop`. -/
def load_dataset (fetchCsv : String → String → DataFrame)
    (readRaw : String → List (List String))
    (name url target sep : Option String) :
    Except String (DataFrame × List String) × List (String × String) :=
  if name = some "iris" then
    let df := fetchCsv irisUrl ","
    if "species" ∈ df.columns then
      (.ok (df.dropCol "species", df.getCol "species"), [(irisUrl, ",")])
    else
      (.error (keyErrorMsg "species"), [(irisUrl, ",")])
  else if name = some "wine" then
    let df : DataFrame := wineCols.zip (readRaw wineUrl)
    if "class" ∈ df.columns then
      (.ok (df.dropCol "class", df.getCol "class"), [(wineUrl, ",")])
    else
      (.error (keyErrorMsg "class"), [(wineUrl, ",")])
  else
    match url, target with
    | some u, some t =>
      let s := sepToUse sep u
      let df := fetchCsv u s
      if t ∈ df.columns then
        (.ok (df.dropCol t, df.getCol t), [(u, s)])
      else
        (.error (keyErrorMsg t), [(u, s)])
    | _, _ =>
      (.error "Spécifiez un nom de dataset connu ou une url+target.", [])

end DataLoader

/-- **C7.** Calling `load_dataset` with an unknown dataset name and no
url raises the `ValueError` configuration error with an empty network
log: no download is attempted, whatever the network would have
returned. -/
theorem load_dataset_unknown_name (fetchCsv : String → String → DataFrame)
    (readRaw : String → List (List String)) (name target sep : Option String)
    (h1 : name ≠ some "iris") (h2 : name ≠ some "wine") :
    DataLoader.load_dataset fetchCsv readRaw name none target sep
      = (.error "Spécifiez un nom de dataset connu ou une url+target.", []) := by
  unfold DataLoader.load_dataset
  rw [if_neg h1, if_neg h2]

/-- Witness for `load_dataset_unknown_name` at `"not_a_real_dataset"`. -/
theorem load_dataset_unknown_name_witness :
    ((some "not_a_real_dataset" : Option String) ≠ some "iris"
      ∧ (some "not_a_real_dataset" : Option String) ≠ some "wine")
    ∧ DataLoader.load_dataset (fun _ _ => []) (fun _ => [])
        (some "not_a_real_dataset") none none none
      = (.error "Spécifiez un nom de dataset connu ou une url+target.", []) :=
  ⟨⟨by decide, by decide⟩,
   load_dataset_unknown_name (fun _ _ => []) (fun _ => [])
     (some "not_a_real_dataset") none none (by decide) (by decide)⟩

/-- **C8.** On the generic url+target path, when the named target column
does not exist in the downloaded table, `load_dataset` fails with the
configuration error naming that column (the `KeyError` of
`df.drop(columns=[target])`), after the single download. -/
theorem load_dataset_missing_target (fetchCsv : String → String → DataFrame)
    (readRaw : String → List (List String)) (name : Option String) (u t : String)
    (sep : Option String)
    (h1 : name ≠ some "iris") (h2 : name ≠ some "wine")
    (hmiss : t ∉ (fetchCsv u (sepToUse sep u)).columns) :
    DataLoader.load_dataset fetchCsv readRaw name (some u) (some t) sep
      = (.error (keyErrorMsg t), [(u, sepToUse sep u)]) := by
  unfold DataLoader.load_dataset
  rw [if_neg h1, if_neg h2]
  dsimp only
  rw [if_neg hmiss]

/-- Witness for `load_dataset_missing_target` on a table without the
requested column. -/
theorem load_dataset_missing_target_witness :
    ((some "other" : Option String) ≠ some "iris"
      ∧ (some "other" : Option String) ≠ some "wine"
      ∧ "quality" ∉ DataFrame.columns (((fun _ _ => [("a", [])]) : String → String → DataFrame)
          "https://ex.org/data.csv" (sepToUse none "https://ex.org/data.csv")))
    ∧ DataLoader.load_dataset (fun _ _ => [("a", [])]) (fun _ => [])
        (some "other") (some "https://ex.org/data.csv") (some "quality") none
      = (.error (keyErrorMsg "quality"),
          [("https://ex.org/data.csv", sepToUse none "https://ex.org/data.csv")]) :=
  ⟨⟨by decide, by decide, by decide⟩,
   load_dataset_missing_target (fun _ _ => [("a", [])]) (fun _ => [])
     (some "other") "https://ex.org/data.csv" "quality" none
     (by decide) (by decide) (by decide)⟩

/-- **C10.** On the generic url+target path with `sep` unspecified, the
CSV is fetched with separator `";"` exactly when the substring
`"winequality"` occurs in the url and with `","` otherwise; an
explicitly passed `sep` is forwarded unchanged.  (The network log holds
exactly the one fetch with the separator used.) -/
theorem load_dataset_sep_heuristic (fetchCsv : String → String → DataFrame)
    (readRaw : String → List (List String)) (name : Option String) (u t : String)
    (h1 : name ≠ some "iris") (h2 : name ≠ some "wine") :
    (DataLoader.load_dataset fetchCsv readRaw name (some u) (some t) none).2
        = [(u, if "winequality".toList <:+: u.toList then ";" else ",")]
    ∧ ∀ s : String,
      (DataLoader.load_dataset fetchCsv readRaw name (some u) (some t) (some s)).2
        = [(u, s)] := by
  constructor
  · unfold DataLoader.load_dataset
    rw [if_neg h1, if_neg h2]
    dsimp only
    by_cases hmem : t ∈ (fetchCsv u (sepToUse none u)).columns
    · rw [if_pos hmem]
      rfl
    · rw [if_neg hmem]
      rfl
  · intro s
    unfold DataLoader.load_dataset
    rw [if_neg h1, if_neg h2]
    dsimp only
    by_cases hmem : t ∈ (fetchCsv u (sepToUse (some s) u)).columns
    · rw [if_pos hmem]
      rfl
    · rw [if_neg hmem]
      rfl

/-- Witness for `load_dataset_sep_heuristic` at a winequality url. -/
theorem load_dataset_sep_heuristic_witness :
    ((none : Option String) ≠ some "iris" ∧ (none : Option String) ≠ some "wine"
      ∧ (if "winequality".toList <:+:
          ("https://ex.org/winequality-red.csv").toList then ";" else ",") = ";")
    ∧ ((DataLoader.load_dataset (fun _ _ => [("quality", [])]) (fun _ => [])
          none (some "https://ex.org/winequality-red.csv") (some "quality") none).2
        = [("https://ex.org/winequality-red.csv",
            if "winequality".toList <:+:
              ("https://ex.org/winequality-red.csv").toList then ";" else ",")]
      ∧ ∀ s : String,
        (DataLoader.load_dataset (fun _ _ => [("quality", [])]) (fun _ => [])
            none (some "https://ex.org/winequality-red.csv") (some "quality") (some s)).2
          = [("https://ex.org/winequality-red.csv", s)]) :=
  ⟨⟨by decide, by decide, by decide⟩,
   load_dataset_sep_heuristic (fun _ _ => [("quality", [])]) (fun _ => [])
     none "https://ex.org/winequality-red.csv" "quality" (by decide) (by decide)⟩

end TrainedML
